import Mathlib

/-!
Verification of the concurrent message-injection subsystem of
`src/trojanHorsev1.py`: a background TCP server (`teacher_server`) that frames
newline-delimited byte chunks into lines, displays them over the interactive
console (`display_teacher_message`), and cooperates with the foreground game
through a shared stop event.

The Python code is shallowly embedded: bytes are `Nat` (values `< 256`),
socket/readline effects are abstracted as explicit event lists, and each loop
of the source becomes a recursive function over those events returning the
traces (displayed messages, logged diagnostics) it produced together with its
final state.
-/

namespace TrojanHorse

/-- One whitespace character as recognised by Python's `str.strip()` /
`str.isspace()` (ASCII whitespace, the C1 separators, and the Unicode space
characters). -/
def isPySpace (c : Char) : Bool :=
  c.toNat ∈ [9, 10, 11, 12, 13, 28, 29, 30, 31, 32, 133, 160, 5760,
             8192, 8193, 8194, 8195, 8196, 8197, 8198, 8199, 8200, 8201, 8202,
             8232, 8233, 8239, 8287, 12288]

/-- Python `str.strip()`: drop leading and trailing whitespace. -/
def pyStripChars (cs : List Char) : List Char :=
  ((cs.dropWhile isPySpace).reverse.dropWhile isPySpace).reverse

/-- `str.strip()` on a packed string. -/
def pyStrip (s : String) : String :=
  String.mk (pyStripChars s.data)

/-- A UTF-8 continuation byte (`0x80`–`0xBF`). -/
def isCont (b : Nat) : Bool := 0x80 ≤ b && b ≤ 0xBF

/-- Valid first continuation byte after a three-byte lead (`0xE0`–`0xEF`):
`0xE0` requires `0xA0`–`0xBF`, `0xED` requires `0x80`–`0x9F` (no surrogates). -/
def contE (b c : Nat) : Bool :=
  if b = 0xE0 then 0xA0 ≤ c && c ≤ 0xBF
  else if b = 0xED then 0x80 ≤ c && c ≤ 0x9F
  else isCont c

/-- Valid first continuation byte after a four-byte lead (`0xF0`–`0xF4`):
`0xF0` requires `0x90`–`0xBF`, `0xF4` requires `0x80`–`0x8F`. -/
def contF (b c : Nat) : Bool :=
  if b = 0xF0 then 0x90 ≤ c && c ≤ 0xBF
  else if b = 0xF4 then 0x80 ≤ c && c ≤ 0x8F
  else isCont c

/-- The Unicode replacement character `U+FFFD`. -/
def replChar : Char := Char.ofNat 0xFFFD

/-- Python `bytes.decode('utf-8', 'replace')` (line 91 of the source): total
UTF-8 decoding where every maximal invalid subsequence becomes `U+FFFD`.
It never fails, whatever the input bytes. -/
def decodeChars : List Nat → List Char
  | [] => []
  | b :: bs =>
    if b < 0x80 then Char.ofNat b :: decodeChars bs
    else if 0xC2 ≤ b ∧ b ≤ 0xDF then
      match bs with
      | c1 :: bs1 =>
        if isCont c1 then
          Char.ofNat ((b - 0xC0) * 0x40 + (c1 - 0x80)) :: decodeChars bs1
        else replChar :: decodeChars (c1 :: bs1)
      | [] => [replChar]
    else if 0xE0 ≤ b ∧ b ≤ 0xEF then
      match bs with
      | c1 :: bs1 =>
        if contE b c1 then
          match bs1 with
          | c2 :: bs2 =>
            if isCont c2 then
              Char.ofNat ((b - 0xE0) * 0x1000 + (c1 - 0x80) * 0x40 + (c2 - 0x80))
                :: decodeChars bs2
            else replChar :: decodeChars (c2 :: bs2)
          | [] => [replChar]
        else replChar :: decodeChars (c1 :: bs1)
      | [] => [replChar]
    else if 0xF0 ≤ b ∧ b ≤ 0xF4 then
      match bs with
      | c1 :: bs1 =>
        if contF b c1 then
          match bs1 with
          | c2 :: bs2 =>
            if isCont c2 then
              match bs2 with
              | c3 :: bs3 =>
                if isCont c3 then
                  Char.ofNat ((b - 0xF0) * 0x40000 + (c1 - 0x80) * 0x1000 +
                              (c2 - 0x80) * 0x40 + (c3 - 0x80)) :: decodeChars bs3
                else replChar :: decodeChars (c3 :: bs3)
              | [] => [replChar]
            else replChar :: decodeChars (c2 :: bs2)
          | [] => [replChar]
        else replChar :: decodeChars (c1 :: bs1)
      | [] => [replChar]
    else replChar :: decodeChars bs
termination_by l => l.length
decreasing_by all_goals simp [List.length_cons] <;> omega

/-- Line 91 of the source, `line.decode('utf-8', 'replace').strip()`: total
decode then trim. -/
def lineOf (l : List Nat) : String :=
  String.mk (pyStripChars (decodeChars l))

/-- The newline byte, the wire protocol's only delimiter. -/
def NL : Nat := 10

/-- `buffer.split(b"\n", 1)` when `b"\n" in buffer` (lines 89–90): `some (l, r)`
with `l` the bytes before the first newline and `r` those after, or `none`
when the buffer holds no newline. -/
def splitFirstNL : List Nat → Option (List Nat × List Nat)
  | [] => none
  | b :: bs =>
    if b = NL then some ([], bs)
    else
      match splitFirstNL bs with
      | some (l, r) => some (b :: l, r)
      | none => none

theorem splitFirstNL_length {buf l r : List Nat}
    (h : splitFirstNL buf = some (l, r)) : r.length < buf.length := by
  induction buf generalizing l r with
  | nil => simp [splitFirstNL] at h
  | cons b bs ih =>
    by_cases hb : b = NL
    · simp [splitFirstNL, hb] at h
      obtain ⟨-, hr⟩ := h
      subst hr
      simp
    · simp only [splitFirstNL, if_neg hb] at h
      cases hsub : splitFirstNL bs with
      | none => rw [hsub] at h; simp at h
      | some p =>
        obtain ⟨l', r'⟩ := p
        rw [hsub] at h
        simp at h
        obtain ⟨-, hr⟩ := h
        subst hr
        have := ih hsub
        simp
        omega

/-- One framing pass (the `while b"\n" in buffer` loop of lines 89–90, framing
only): repeatedly split off the raw bytes before the first newline, returning
the extracted raw lines in order and the unterminated remainder. -/
def framePass (buf : List Nat) : List (List Nat) × List Nat :=
  match h : splitFirstNL buf with
  | none => ([], buf)
  | some (l, r) =>
    let rest := framePass r
    (l :: rest.1, rest.2)
termination_by buf.length
decreasing_by exact splitFirstNL_length h

/-- The framing loop run over a whole connection: each chunk is appended to
the carried buffer (line 88, `buffer += data`) and framed; yields all raw
lines and the final buffer. -/
def feedAll (buf : List Nat) : List (List Nat) → List (List Nat) × List Nat
  | [] => ([], buf)
  | c :: cs =>
    let p := framePass (buf ++ c)
    let rest := feedAll p.2 cs
    (p.1 ++ rest.1, rest.2)

/-- Result of one execution of the inner line-processing loop (lines 89–98):
the messages passed to `display_teacher_message` in order, the remaining
buffer, and whether `stop_event.set()` was called (the `"quit"` branch). -/
structure FrameResult where
  displays : List String
  buffer : List Nat
  quit : Bool
  deriving Repr, DecidableEq

/-- The string displayed when the quit token is received (line 96). -/
def quitNotice : String := "(hacker requested end of game)"

/-- Lines 89–98 of `teacher_server`: while the buffer holds a newline, split
off the first line, decode and trim it; display it when non-empty; when its
trimmed text equals `"quit"`, display the notice, set the stop event and
break out (leaving the rest of the buffer unprocessed). -/
def processBuffer (buf : List Nat) : FrameResult :=
  match h : splitFirstNL buf with
  | none => ⟨[], buf, false⟩
  | some (l, r) =>
    let line := lineOf l
    if line = "" then processBuffer r
    else if pyStrip line = "quit" then ⟨[line, quitNotice], r, true⟩
    else
      let rest := processBuffer r
      ⟨line :: rest.displays, rest.buffer, rest.quit⟩
termination_by buf.length
decreasing_by all_goals exact splitFirstNL_length h

/-- One outcome of `conn.recv(1024)` (line 85) as seen by the handler:
a chunk of bytes (empty means the peer closed the stream), a socket timeout,
or any other exception, carrying its rendered message. -/
inductive RecvEvent where
  | data (bs : List Nat)
  | timeout
  | error (msg : String)
  deriving Repr, DecidableEq

/-- Result of the per-connection receive loop (lines 83–103): displayed
messages, logged diagnostics, remaining buffer and final stop-event value. -/
structure ConnResult where
  displays : List String
  logs : List String
  buffer : List Nat
  stop : Bool
  deriving Repr, DecidableEq

/-- The per-connection receive loop (lines 83–103): while the stop event is
unset, take the next receive outcome; a timeout just continues; an empty read
breaks (peer closed); any other exception is logged and breaks; data is
appended to the buffer and framed by `processBuffer`. -/
def connLoop (stop : Bool) (buffer : List Nat) : List RecvEvent → ConnResult
  | [] => ⟨[], [], buffer, stop⟩
  | e :: evs =>
    if stop then ⟨[], [], buffer, stop⟩
    else
      match e with
      | .timeout => connLoop stop buffer evs
      | .error m => ⟨[], ["(hacker connection error: " ++ m ++ ")"], buffer, stop⟩
      | .data bs =>
        if bs.isEmpty then ⟨[], [], buffer, stop⟩
        else
          let r := processBuffer (buffer ++ bs)
          let rest := connLoop (stop || r.quit) r.buffer evs
          ⟨r.displays ++ rest.displays, rest.logs, rest.buffer, rest.stop⟩

/-- One outcome of `s.accept()` (line 74): a timeout, or an accepted
connection with its peer address and the receive outcomes it will produce. -/
inductive AcceptEvent where
  | timeout
  | conn (addr : String) (evs : List RecvEvent)

/-- Result of the accept loop (lines 72–104): displays, logs and the final
stop-event value. -/
structure ListenResult where
  displays : List String
  logs : List String
  stop : Bool
  deriving Repr, DecidableEq

/-- The accept loop (lines 72–104): while the stop event is unset, accept
with a 1-second timeout (timeouts continue the loop) and run the connection
handler inline, one connection at a time. -/
def listenLoop (stop : Bool) : List AcceptEvent → ListenResult
  | [] => ⟨[], [], stop⟩
  | e :: evs =>
    if stop then ⟨[], [], stop⟩
    else
      match e with
      | .timeout => listenLoop stop evs
      | .conn addr revs =>
        let c := connLoop stop [] revs
        let rest := listenLoop c.stop evs
        ⟨c.displays ++ rest.displays,
         ("\n(Hacker connected from " ++ addr ++ ")") :: (c.logs ++
           ("(hacker disconnected)" :: rest.logs)),
         rest.stop⟩

/-- The configured bind address (line 16). -/
def HOST : String := "0.0.0.0"

/-- The configured port (line 17). -/
def PORT : Nat := 9999

/-- Outcome of `s.bind((HOST, PORT))` (line 63): success, or an `OSError`
carrying its rendered message. -/
inductive BindResult where
  | ok
  | err (msg : String)

/-- Result of one run of `teacher_server` (lines 55–104): the messages shown
via `display_teacher_message`, the diagnostics printed via `safe_print`, and
the final stop-event value. The function is total: `teacher_server` returns
normally on every modelled outcome, raising nothing to its caller. -/
structure ServerResult where
  displays : List String
  logs : List String
  stop : Bool
  deriving Repr, DecidableEq

/-- `teacher_server` (lines 55–104) over the abstracted socket outcomes: a
bind failure prints the diagnostic and the disabled note and returns (lines
64–67); otherwise the server announces itself and runs the accept loop. -/
def teacher_server (stop : Bool) (bind : BindResult)
    (accepts : List AcceptEvent) : ServerResult :=
  match bind with
  | .err e =>
    ⟨[], ["ERROR: Could not bind to " ++ HOST ++ ":" ++ toString PORT ++ " — " ++ e,
          "Hacker messaging disabled."], stop⟩
  | .ok =>
    let r := listenLoop stop accepts
    ⟨r.displays,
     ("(Hacker message server listening on " ++ HOST ++ ":" ++ toString PORT ++ ")")
       :: r.logs,
     r.stop⟩

/-- Result of `main` (lines 151–162): the server thread's traces, the
interactive game's own output trace, and the final message printed by the
`finally` block. -/
structure MainResult where
  serverDisplays : List String
  serverLogs : List String
  gameOutput : List String
  exitMessage : String
  deriving Repr, DecidableEq

/-- `main` (lines 151–162): starts `teacher_server` on a daemon thread, runs
the game, and in a `finally` block sets the stop event and prints the exit
message. The game is an external collaborator; its console trace is a
parameter, produced regardless of the server's outcome. -/
def mainRun (bind : BindResult) (accepts : List AcceptEvent)
    (game : List String) : MainResult :=
  let srv := teacher_server false bind accepts
  ⟨srv.displays, srv.logs, game, "Game exited. Hacker server stopped."⟩

/-- The readline environment seen by `display_teacher_message`: the module
is unavailable (import failed, line 13), available with the current input
buffer returned by `get_line_buffer`, or available but raising during the
introspection/redraw path (caught at line 46). -/
inductive ReadlineState where
  | unavailable
  | buffer (cur : String)
  | failing

/-- `display_teacher_message` (lines 27–53): the sequence of `sys.stdout.write`
payloads, in order. With readline, a newline, the `[HACKER]`-tagged line, then
the prompt and the saved input buffer; on either fallback path, a single write
of a newline, the `[Hacker]`-tagged line and a bare prompt. -/
def display_teacher_message (rl : ReadlineState) (msg : String) : List String :=
  match rl with
  | .buffer cur => ["\n", "[HACKER] " ++ msg ++ "\n", "> " ++ cur]
  | .failing => ["\n[Hacker] " ++ msg ++ "\n> "]
  | .unavailable => ["\n[Hacker] " ++ msg ++ "\n> "]

/-- The operations the program ever performs on the shared `threading.Event`
`stop_event`: `set()` (lines 97 and 160) and `is_set()` (lines 72, 83 and the
loop guards). The program never calls `clear()`. -/
inductive EventOp where
  | set
  | isSet

/-- Effect of one event operation on the flag's value: `set()` makes it true,
`is_set()` merely observes. -/
def applyOp (b : Bool) : EventOp → Bool
  | .set => true
  | .isSet => b

/-- The flag after a sequence of event operations. -/
def runOps (b : Bool) (ops : List EventOp) : Bool :=
  ops.foldl applyOp b

theorem splitFirstNL_eq_some {buf l r : List Nat}
    (h : splitFirstNL buf = some (l, r)) : buf = l ++ NL :: r ∧ NL ∉ l := by
  induction buf generalizing l r with
  | nil => simp [splitFirstNL] at h
  | cons b bs ih =>
    by_cases hb : b = NL
    · simp [splitFirstNL, hb] at h
      obtain ⟨hl, hr⟩ := h
      subst hl; subst hr; subst hb
      exact ⟨rfl, List.not_mem_nil _⟩
    · simp only [splitFirstNL, if_neg hb] at h
      cases hsub : splitFirstNL bs with
      | none => rw [hsub] at h; simp at h
      | some p =>
        obtain ⟨l', r'⟩ := p
        rw [hsub] at h
        simp at h
        obtain ⟨hl, hr⟩ := h
        obtain ⟨hbs, hnotl⟩ := ih hsub
        subst hl; subst hr
        constructor
        · rw [hbs]; rfl
        · intro hm
          rcases List.mem_cons.mp hm with h1 | h2
          · exact hb h1.symm
          · exact hnotl h2

theorem splitFirstNL_eq_none {buf : List Nat}
    (h : splitFirstNL buf = none) : NL ∉ buf := by
  induction buf with
  | nil => exact List.not_mem_nil _
  | cons b bs ih =>
    by_cases hb : b = NL
    · simp [splitFirstNL, hb] at h
    · simp only [splitFirstNL, if_neg hb] at h
      cases hsub : splitFirstNL bs with
      | none =>
        intro hm
        rcases List.mem_cons.mp hm with h1 | h2
        · exact hb h1.symm
        · exact ih hsub h2
      | some p => obtain ⟨l', r'⟩ := p; rw [hsub] at h; simp at h

theorem splitFirstNL_append {l r : List Nat} (h : NL ∉ l) :
    splitFirstNL (l ++ NL :: r) = some (l, r) := by
  induction l with
  | nil => simp [splitFirstNL]
  | cons b bs ih =>
    have hb : b ≠ NL := fun hq => h (hq ▸ List.mem_cons_self b bs)
    have hbs : NL ∉ bs := fun hm => h (List.mem_cons_of_mem b hm)
    simp only [List.cons_append, splitFirstNL, if_neg hb, List.append_eq, ih hbs]

theorem framePass_eq_none {buf : List Nat} (h : splitFirstNL buf = none) :
    framePass buf = ([], buf) := by
  rw [framePass.eq_def, h]

theorem framePass_eq_some {buf l r : List Nat}
    (h : splitFirstNL buf = some (l, r)) :
    framePass buf = (l :: (framePass r).1, (framePass r).2) := by
  rw [framePass.eq_def, h]

theorem framePass_concat (buf : List Nat) :
    ((framePass buf).1.map (· ++ [NL])).flatten ++ (framePass buf).2 = buf := by
  induction buf using framePass.induct with
  | case1 buf h => simp [framePass_eq_none h]
  | case2 buf l r h ih =>
    obtain ⟨hb, -⟩ := splitFirstNL_eq_some h
    rw [framePass_eq_some h]
    simp only [List.map_cons, List.flatten_cons, List.append_assoc, ih]
    rw [hb]
    simp

theorem framePass_no_newline (buf : List Nat) : NL ∉ (framePass buf).2 := by
  induction buf using framePass.induct with
  | case1 buf h => rw [framePass_eq_none h]; exact splitFirstNL_eq_none h
  | case2 buf l r h ih => rw [framePass_eq_some h]; exact ih

theorem framePass_lines {buf x : List Nat} (hx : x ∈ (framePass buf).1) :
    NL ∉ x := by
  induction buf using framePass.induct with
  | case1 buf h => rw [framePass_eq_none h] at hx; simp at hx
  | case2 buf l r h ih =>
    rw [framePass_eq_some h] at hx
    rcases List.mem_cons.mp hx with h1 | h2
    · exact h1 ▸ (splitFirstNL_eq_some h).2
    · exact ih h2

theorem feedAll_concat (cs : List (List Nat)) : ∀ buf : List Nat,
    ((feedAll buf cs).1.map (· ++ [NL])).flatten ++ (feedAll buf cs).2 =
      buf ++ cs.flatten := by
  induction cs with
  | nil => intro buf; simp [feedAll]
  | cons c cs ih =>
    intro buf
    simp only [feedAll, List.map_append, List.flatten_append, List.flatten_cons,
      List.append_assoc, ih]
    rw [← List.append_assoc, framePass_concat (buf ++ c), List.append_assoc]

theorem feedAll_no_newline (cs : List (List Nat)) :
    ∀ buf : List Nat, NL ∉ buf → NL ∉ (feedAll buf cs).2 := by
  induction cs with
  | nil => intro buf h; exact h
  | cons c cs ih =>
    intro buf _
    exact ih _ (framePass_no_newline (buf ++ c))

theorem feedAll_lines (cs : List (List Nat)) :
    ∀ (buf x : List Nat), x ∈ (feedAll buf cs).1 → NL ∉ x := by
  induction cs with
  | nil => intro buf x hx; simp [feedAll] at hx
  | cons c cs ih =>
    intro buf x hx
    simp only [feedAll] at hx
    rcases List.mem_append.mp hx with h1 | h2
    · exact framePass_lines h1
    · exact ih _ _ h2

theorem processBuffer_eq_none {buf : List Nat} (h : splitFirstNL buf = none) :
    processBuffer buf = ⟨[], buf, false⟩ := by
  rw [processBuffer.eq_def, h]

theorem processBuffer_eq_some {buf l r : List Nat}
    (h : splitFirstNL buf = some (l, r)) :
    processBuffer buf =
      (if lineOf l = "" then processBuffer r
       else if pyStrip (lineOf l) = "quit" then ⟨[lineOf l, quitNotice], r, true⟩
       else ⟨lineOf l :: (processBuffer r).displays, (processBuffer r).buffer,
             (processBuffer r).quit⟩) := by
  rw [processBuffer.eq_def, h]

theorem processBuffer_split {l r : List Nat} (h : NL ∉ l) :
    processBuffer (l ++ NL :: r) =
      (if lineOf l = "" then processBuffer r
       else if pyStrip (lineOf l) = "quit" then ⟨[lineOf l, quitNotice], r, true⟩
       else ⟨lineOf l :: (processBuffer r).displays, (processBuffer r).buffer,
             (processBuffer r).quit⟩) :=
  processBuffer_eq_some (splitFirstNL_append h)

theorem connLoop_stop (buf : List Nat) (evs : List RecvEvent) :
    connLoop true buf evs = ⟨[], [], buf, true⟩ := by
  cases evs <;> simp [connLoop]

theorem listenLoop_stop (evs : List AcceptEvent) :
    listenLoop true evs = ⟨[], [], true⟩ := by
  cases evs <;> simp [listenLoop]

theorem processBuffer_quit_notice (buf : List Nat) :
    (processBuffer buf).quit = true →
    (processBuffer buf).displays.getLast? = some quitNotice := by
  induction buf using processBuffer.induct with
  | case1 buf h =>
    rw [processBuffer_eq_none h]
    intro hfalse
    simp at hfalse
  | case2 buf l r h line hline ih =>
    rw [processBuffer_eq_some h, if_pos hline]
    exact ih
  | case3 buf l r h line hne hq =>
    rw [processBuffer_eq_some h, if_neg hne, if_pos hq]
    intro _
    rfl
  | case4 buf l r h line hne hnq ih =>
    rw [processBuffer_eq_some h, if_neg hne, if_neg hnq]
    intro hq
    simp only at hq ⊢
    have h2 := ih hq
    cases hd : (processBuffer r).displays with
    | nil => rw [hd] at h2; simp at h2
    | cons d ds => rw [hd] at h2; exact (List.getLast?_cons_cons ..).trans h2

theorem runOps_true (ops : List EventOp) : runOps true ops = true := by
  induction ops with
  | nil => rfl
  | cons op ops ih => cases op <;> simpa [runOps, applyOp] using ih

theorem connLoop_quit_chunk (buf chunk : List Nat) (evs : List RecvEvent)
    (hne : chunk.isEmpty = false)
    (hq : (processBuffer (buf ++ chunk)).quit = true) :
    connLoop false buf (RecvEvent.data chunk :: evs) =
      ⟨(processBuffer (buf ++ chunk)).displays, [],
       (processBuffer (buf ++ chunk)).buffer, true⟩ := by
  simp only [connLoop, Bool.false_eq_true, if_false, hne, hq, Bool.false_or]
  rw [connLoop_stop]
  simp

/-- C1: Framing correctness. For every byte sequence split arbitrarily into
chunks fed to the connection's framing loop, the concatenation of all
extracted raw lines with their newline terminators reinserted, followed by
the final buffer contents, equals the concatenation of all chunks; the final
buffer contains no terminator and no extracted line contains one, so a
trailing fragment without a terminator stays in the buffer and is never
yielded as a line. -/
theorem framing_correctness (chunks : List (List Nat)) :
    ((feedAll [] chunks).1.map (· ++ [NL])).flatten ++ (feedAll [] chunks).2 =
      chunks.flatten
    ∧ NL ∉ (feedAll [] chunks).2
    ∧ ∀ x ∈ (feedAll [] chunks).1, NL ∉ x :=
  ⟨by simpa using feedAll_concat chunks [],
   feedAll_no_newline chunks [] (List.not_mem_nil _),
   fun x hx => feedAll_lines chunks [] x hx⟩

/-- Witness for `framing_correctness`: the bytes of `"h\ni"` then `"j"` —
one complete line is yielded and the fragment `"ij"` stays buffered. -/
theorem framing_correctness_witness :
    ((feedAll [] [[104, NL, 105], [106]]).1.map (· ++ [NL])).flatten
        ++ (feedAll [] [[104, NL, 105], [106]]).2 = [104, NL, 105, 106]
    ∧ NL ∉ (feedAll [] [[104, NL, 105], [106]]).2 :=
  ⟨by simpa using (framing_correctness [[104, NL, 105], [106]]).1,
   (framing_correctness [[104, NL, 105], [106]]).2.1⟩

theorem string_eq_of_data : ∀ {s t : String}, s.data = t.data → s = t
  | ⟨_⟩, ⟨_⟩, rfl => rfl

/-- C2 counterexample: the claim requires case-insensitive recognition, but
`"QUIT\n"` — whose trimmed text equals `"quit"` up to case — is displayed as
an ordinary message and does not set the stop event (no notice, flag still
false). -/
theorem quit_case_insensitive_counterexample :
    "QUIT".data.map Char.toLower = "quit".data
    ∧ processBuffer [81, 85, 73, 84, NL] = ⟨["QUIT"], [], false⟩ := by
  refine ⟨by decide, ?_⟩
  simp [processBuffer, splitFirstNL, NL, lineOf, decodeChars, pyStripChars,
    isPySpace, pyStrip, quitNotice]

/-- C2 (amended): control-token recognition is whitespace-insensitive but
case-sensitive — for every received line whose trimmed text equals exactly
`"quit"`, the handler displays it, displays the end-of-game notice, sets the
stop event, and the receive loop ends with the stop event set (the
connection closes). -/
theorem quit_token_case_sensitive (l rest : List Nat) (evs : List RecvEvent)
    (h10 : NL ∉ l) (hq : lineOf l = "quit") :
    processBuffer (l ++ NL :: rest) = ⟨["quit", quitNotice], rest, true⟩
    ∧ (connLoop false [] (RecvEvent.data (l ++ NL :: rest) :: evs)).stop = true := by
  have hpb : processBuffer (l ++ NL :: rest) = ⟨["quit", quitNotice], rest, true⟩ := by
    rw [processBuffer_split h10, hq, if_neg (by decide : ¬("quit" : String) = ""),
      if_pos (by decide : pyStrip "quit" = "quit")]
  refine ⟨hpb, ?_⟩
  have hne : (l ++ NL :: rest).isEmpty = false := by cases l <;> rfl
  have hq2 : (processBuffer (([] : List Nat) ++ (l ++ NL :: rest))).quit = true := by
    rw [List.nil_append, hpb]
  rw [connLoop_quit_chunk [] (l ++ NL :: rest) evs hne hq2]

/-- Witness for `quit_token_case_sensitive`: the line `" quit "` (whitespace
around the token) triggers the notice and sets the stop event. -/
theorem quit_token_case_sensitive_witness :
    NL ∉ ([32, 113, 117, 105, 116, 32] : List Nat)
    ∧ lineOf [32, 113, 117, 105, 116, 32] = "quit"
    ∧ processBuffer ([32, 113, 117, 105, 116, 32] ++ NL :: []) =
        ⟨["quit", quitNotice], [], true⟩ := by
  have h10 : NL ∉ ([32, 113, 117, 105, 116, 32] : List Nat) := by decide
  have hq : lineOf [32, 113, 117, 105, 116, 32] = "quit" := by
    simp [lineOf, decodeChars, pyStripChars, isPySpace]
  exact ⟨h10, hq, (quit_token_case_sensitive _ [] [] h10 hq).1⟩

/-- C3: Monotonic, idempotent cancellation. Once the stop event is set it
stays set under every sequence of operations the program performs on it
(`set()`/`is_set()` only — the program never calls `clear()`); repeating
`set()` changes nothing; and none of the components (connection handler,
accept loop, server) ever turn a set flag back off. -/
theorem cancellation_monotone_idempotent :
    (∀ ops : List EventOp, runOps true ops = true)
    ∧ (∀ b : Bool, applyOp (applyOp b .set) .set = applyOp b .set ∧
        applyOp b .set = true)
    ∧ (∀ (buf : List Nat) (evs : List RecvEvent), (connLoop true buf evs).stop = true)
    ∧ (∀ evs : List AcceptEvent, (listenLoop true evs).stop = true)
    ∧ (∀ (bind : BindResult) (accepts : List AcceptEvent),
        (teacher_server true bind accepts).stop = true) :=
  ⟨runOps_true,
   fun _ => ⟨rfl, rfl⟩,
   fun buf evs => by rw [connLoop_stop],
   fun evs => by rw [listenLoop_stop],
   fun bind accepts => by cases bind <;> simp [teacher_server, listenLoop_stop]⟩

/-- C4: Message construction. Every extracted raw line is decoded as UTF-8
with invalid-byte substitution — `decodeChars`/`lineOf` are total functions,
so decoding never fails on any input bytes — then trimmed, and it is
dispatched to the interrupt display exactly when the trimmed result is
non-empty: the first display produced by framing `line ++ "\n"` is the
trimmed text when that is non-empty and nothing otherwise, so a blank line
produces no displayed message. -/
theorem message_construction (l : List Nat) (h : NL ∉ l) :
    (processBuffer (l ++ [NL])).displays.head? =
      (if lineOf l = "" then none else some (lineOf l)) := by
  have h0 : processBuffer ([] : List Nat) = ⟨[], [], false⟩ :=
    processBuffer_eq_none rfl
  rw [processBuffer_split (r := []) h]
  by_cases hline : lineOf l = ""
  · rw [if_pos hline, if_pos hline, h0]
    rfl
  · rw [if_neg hline, if_neg hline]
    by_cases hquit : pyStrip (lineOf l) = "quit"
    · rw [if_pos hquit]
      rfl
    · rw [if_neg hquit]
      rfl

/-- Witness for `message_construction`: the blank line `" \t"` is decoded and
trimmed to the empty string, so no message is dispatched. -/
theorem message_construction_witness :
    NL ∉ ([32, 9] : List Nat)
    ∧ (processBuffer ([32, 9] ++ [NL])).displays.head? =
        (if lineOf [32, 9] = "" then none else some (lineOf [32, 9])) :=
  ⟨by decide, message_construction [32, 9] (by decide)⟩

/-- C5: Exactly-once delivery. Feeding the single chunk `b"hello\n"` on one
connection results in exactly one displayed interrupt message, `"hello"`,
and nothing else. -/
theorem exactly_once_delivery :
    connLoop false [] [RecvEvent.data [104, 101, 108, 108, 111, NL]] =
      ⟨["hello"], [], [], false⟩ := by
  simp [connLoop, processBuffer, splitFirstNL, NL, lineOf, decodeChars,
    pyStripChars, isPySpace, pyStrip, quitNotice]

/-- C6: Bind-failure resilience. If binding raises an `OSError`,
`teacher_server` prints one diagnostic and the note that hacker messaging is
disabled, displays nothing, and returns without raising (the model is a
total function); `main` still runs the interactive session in full —
whatever the game's output is, it is unaffected — and exits normally,
printing the final message from its `finally` block. -/
theorem bind_failure_resilience (e : String) (accepts : List AcceptEvent)
    (game : List String) :
    teacher_server false (BindResult.err e) accepts =
      ⟨[], ["ERROR: Could not bind to 0.0.0.0:9999 — " ++ e,
            "Hacker messaging disabled."], false⟩
    ∧ mainRun (BindResult.err e) accepts game =
      ⟨[], ["ERROR: Could not bind to 0.0.0.0:9999 — " ++ e,
            "Hacker messaging disabled."], game,
       "Game exited. Hacker server stopped."⟩ := by
  have hpre : "ERROR: Could not bind to " ++ HOST ++ ":" ++ toString PORT ++ " — " =
      "ERROR: Could not bind to 0.0.0.0:9999 — " := by decide
  constructor
  · simp only [teacher_server, hpre]
  · simp only [mainRun, teacher_server, hpre]

/-- C7: Connection-error containment. A receive timeout is not an error: it
merely continues the receive loop. Any other exception while receiving is
logged and terminates only that connection — buffer and stop flag untouched —
after which the accept loop behaves exactly as it would on its remaining
events, accepting new connections while the stop event stays unset. -/
theorem connection_error_containment (m addr : String) (stop : Bool)
    (buf : List Nat) (revs : List RecvEvent) (rest : List AcceptEvent) :
    connLoop stop buf (RecvEvent.timeout :: revs) = connLoop stop buf revs
    ∧ connLoop false buf (RecvEvent.error m :: revs) =
        ⟨[], ["(hacker connection error: " ++ m ++ ")"], buf, false⟩
    ∧ listenLoop false (AcceptEvent.conn addr (RecvEvent.error m :: revs) :: rest) =
        ⟨(listenLoop false rest).displays,
         ("\n(Hacker connected from " ++ addr ++ ")") ::
           ("(hacker connection error: " ++ m ++ ")") ::
           "(hacker disconnected)" :: (listenLoop false rest).logs,
         (listenLoop false rest).stop⟩ := by
  refine ⟨?_, ?_, ?_⟩
  · cases stop
    · simp [connLoop]
    · rw [connLoop_stop, connLoop_stop]
  · simp [connLoop]
  · simp [listenLoop, connLoop]

/-- C8 counterexample: the claim requires the tagged line to read
`"[HACKER] "` + text for every displayed message, but when no snapshot
mechanism is available (readline missing) the fallback write tags the
message `"[Hacker] "`, and the string `"[HACKER] hi"` appears nowhere in
that output. -/
theorem display_tag_counterexample :
    display_teacher_message ReadlineState.unavailable "hi" = ["\n[Hacker] hi\n> "]
    ∧ ¬"[HACKER] hi".data <:+: "\n[Hacker] hi\n> ".data :=
  ⟨rfl, by decide⟩

/-- C8 (amended): with readline available and working, the display emits a
newline, then the line `"[HACKER] "` + text, then a prompt followed by the
snapshot of the user's unsubmitted input — their concatenation being exactly
newline, tagged line, prompt, snapshot; on both fallback paths (readline
missing, or the introspection raising) it emits one write of a newline, the
line tagged `"[Hacker] "` + text, and a bare prompt. -/
theorem display_format (msg cur : String) :
    display_teacher_message (ReadlineState.buffer cur) msg =
      ["\n", "[HACKER] " ++ msg ++ "\n", "> " ++ cur]
    ∧ String.join (display_teacher_message (ReadlineState.buffer cur) msg) =
        "\n[HACKER] " ++ msg ++ "\n> " ++ cur
    ∧ display_teacher_message ReadlineState.unavailable msg =
        ["\n[Hacker] " ++ msg ++ "\n> "]
    ∧ display_teacher_message ReadlineState.failing msg =
        ["\n[Hacker] " ++ msg ++ "\n> "] := by
  refine ⟨rfl, ?_, rfl, rfl⟩
  apply string_eq_of_data
  have e1 : ("\n[HACKER] " : String).data = "\n".data ++ "[HACKER] ".data := by decide
  have e2 : ("\n> " : String).data = "\n".data ++ "> ".data := by decide
  simp [display_teacher_message, String.join, String.data_append, e1, e2]

/-- C9: Line-buffer invariant. When a framing pass completes without setting
the stop event — the only case in which the handler goes back to waiting for
more data — no newline byte remains in the connection's buffer, i.e. the
buffer holds at most one partial line. -/
theorem line_buffer_invariant (buf : List Nat)
    (h : (processBuffer buf).quit = false) :
    NL ∉ (processBuffer buf).buffer := by
  induction buf using processBuffer.induct with
  | case1 buf hs =>
    rw [processBuffer_eq_none hs]
    exact splitFirstNL_eq_none hs
  | case2 buf l r hs line hline ih =>
    rw [processBuffer_eq_some hs, if_pos hline]
    exact ih (by rw [processBuffer_eq_some hs, if_pos hline] at h; exact h)
  | case3 buf l r hs line hne hq =>
    rw [processBuffer_eq_some hs, if_neg hne, if_pos hq] at h
    simp at h
  | case4 buf l r hs line hne hnq ih =>
    rw [processBuffer_eq_some hs, if_neg hne, if_neg hnq] at h ⊢
    exact ih h

/-- Witness for `line_buffer_invariant`: after the chunk `"h\ni"` the pass
ends with no quit, and the buffer `"i"` holds no newline. -/
theorem line_buffer_invariant_witness :
    (processBuffer [104, NL, 105]).quit = false
    ∧ NL ∉ (processBuffer [104, NL, 105]).buffer := by
  have h : (processBuffer [104, NL, 105]).quit = false := by
    simp [processBuffer, splitFirstNL, NL, lineOf, decodeChars, pyStripChars,
      isPySpace, pyStrip, quitNotice]
  exact ⟨h, line_buffer_invariant _ h⟩

/-- C10: Post-quit suppression. Once a framing pass over a chunk sets the
stop flag, the handler displays nothing further from that connection: the
bytes still buffered after the quit line are retained unprocessed and all
later receive events are ignored, and the last message displayed is the
fixed end-of-game notice. -/
theorem post_quit_suppression (buf chunk : List Nat) (evs : List RecvEvent)
    (hne : chunk.isEmpty = false)
    (hq : (processBuffer (buf ++ chunk)).quit = true) :
    connLoop false buf (RecvEvent.data chunk :: evs) =
      ⟨(processBuffer (buf ++ chunk)).displays, [],
       (processBuffer (buf ++ chunk)).buffer, true⟩
    ∧ (processBuffer (buf ++ chunk)).displays.getLast? = some quitNotice :=
  ⟨connLoop_quit_chunk buf chunk evs hne hq, processBuffer_quit_notice _ hq⟩

/-- Witness for `post_quit_suppression`: the chunk `"quit\nx\n"` followed by
a later chunk `"y\n"` — only `"quit"` and the notice are ever displayed. -/
theorem post_quit_suppression_witness :
    ([113, 117, 105, 116, NL, 120, NL] : List Nat).isEmpty = false
    ∧ (processBuffer ([] ++ [113, 117, 105, 116, NL, 120, NL])).quit = true
    ∧ connLoop false [] [RecvEvent.data [113, 117, 105, 116, NL, 120, NL],
        RecvEvent.data [121, NL]] =
      ⟨(processBuffer ([] ++ [113, 117, 105, 116, NL, 120, NL])).displays, [],
       (processBuffer ([] ++ [113, 117, 105, 116, NL, 120, NL])).buffer, true⟩ := by
  have hq : (processBuffer ([] ++ [113, 117, 105, 116, NL, 120, NL])).quit = true := by
    simp [processBuffer, splitFirstNL, NL, lineOf, decodeChars, pyStripChars,
      isPySpace, pyStrip, quitNotice]
  exact ⟨rfl, hq,
    (post_quit_suppression [] [113, 117, 105, 116, NL, 120, NL]
      [RecvEvent.data [121, NL]] rfl hq).1⟩

end TrojanHorse
